import Mathlib

/-!
# Verification of the Tetris game engine (`src/components/tetris-game.tsx`)

A shallow embedding of the game-state engine of the repository's single
source component: board representation, piece catalog, collision detection,
rotation, line clearing, scoring, the keyboard handler, and the drop-interval
step of the frame loop.

Conventions of the embedding:
* JavaScript board cells hold `string | 0`; a cell is `Option String`
  (`none` = `0` = empty, `some c` = the color string of a placed block).
* JavaScript numbers used as grid coordinates are `Int`; elapsed
  milliseconds are `Nat`.
* Mutable component state (`board`, `currentTetromino`, `currentPos`,
  `score`, `gameOver`, `gameStarted`, `dropTimeRef`) is gathered into a
  `GameState` record; each handler becomes a function `GameState → GameState`.
  The `lastTimeRef` timestamp bookkeeping of `gameLoop` is abstracted by
  passing the frame's `deltaTime` directly.
* The source's unbounded loops (the hard-drop `while`, and the line-clear
  `for` whose index is re-incremented after a splice) are given explicit
  fuel; the fuel chosen strictly exceeds the number of iterations the loops
  can make on the given inputs, which the adequacy lemmas make precise.
-/

namespace Tetris

def BOARD_WIDTH : Nat := 10
def BOARD_HEIGHT : Nat := 20

/-- A board cell: `none` models the JS `0` (empty), `some c` a color string. -/
abbrev Cell := Option String

/-- `type Board = (string | 0)[][]` — a list of rows of cells. -/
abbrev Board := List (List Cell)

/-- `type Tetromino = { shape: number[][]; color: string }`. -/
structure Tetromino where
  shape : List (List Nat)
  color : String
deriving DecidableEq

/-- The seven keys of the `TETROMINOES` catalog object. -/
inductive TetrominoKey
  | I | J | L | O | S | T | Z
deriving DecidableEq

/-- The `TETROMINOES` catalog: shape grids and colors, verbatim from the source. -/
def TETROMINOES : TetrominoKey → Tetromino
  | .I => { shape := [[0,0,0,0],[1,1,1,1],[0,0,0,0],[0,0,0,0]], color := "cyan" }
  | .J => { shape := [[1,0,0],[1,1,1],[0,0,0]], color := "blue" }
  | .L => { shape := [[0,0,1],[1,1,1],[0,0,0]], color := "orange" }
  | .O => { shape := [[1,1],[1,1]], color := "yellow" }
  | .S => { shape := [[0,1,1],[1,1,0],[0,0,0]], color := "green" }
  | .T => { shape := [[0,1,0],[1,1,1],[0,0,0]], color := "purple" }
  | .Z => { shape := [[1,1,0],[0,1,1],[0,0,0]], color := "red" }

/-- `createBoard()`: `BOARD_HEIGHT` rows of `BOARD_WIDTH` empty cells. -/
def createBoard : Board :=
  List.replicate BOARD_HEIGHT (List.replicate BOARD_WIDTH (none : Cell))

/-- Cell read `m[i][j]` on a `number[][]` grid, with the JS out-of-range
value collapsed to `0` (only used at in-range indices by the engine). -/
def get2 (m : List (List Nat)) (i j : Nat) : Nat :=
  (m.getD i []).getD j 0

/-- The in-place transposition pass of `rotate` (the double loop swapping
`matrix[x][y]` with `matrix[y][x]` for `x < y`): on the square grids the
engine feeds it, the array afterwards holds exactly the transpose, whose
entry at `(i, j)` is the original entry at `(j, i)`. -/
def transposeSq (m : List (List Nat)) : List (List Nat) :=
  (List.range m.length).map fun i =>
    (List.range m.length).map fun j => get2 m j i

/-- `rotate(matrix, dir)`: value returned by the function — the transposed
grid with each row reversed (`dir > 0`), else with the row order reversed. -/
def rotate (m : List (List Nat)) (dir : Int) : List (List Nat) :=
  if 0 < dir then (transposeSq m).map List.reverse
  else (transposeSq m).reverse

/-- Value held by `rotate`'s *argument* array after the call returns.  The
transposition pass swaps entries of the argument in place, and both
`row.reverse()` (under `dir > 0`) and `matrix.reverse()` (otherwise) also
mutate in place, so the argument ends up holding the same grid value that
`rotate` returns: the rotated grid, not the original. -/
def rotateArg (m : List (List Nat)) (dir : Int) : List (List Nat) :=
  if 0 < dir then (transposeSq m).map List.reverse
  else (transposeSq m).reverse

/-- The copy `shape.map((row) => [...row])` taken by the keyboard handler
before rotating: a fresh outer array of fresh rows with the same cells. -/
def copyGrid (m : List (List Nat)) : List (List Nat) :=
  m.map fun r => r.map fun v => v

/-- The board read `board[boardY] && board[boardY][boardX] !== 0` performed
by `checkCollision` once `boardY >= 0` is known: a missing row
(`board[boardY]` undefined) makes the conjunction falsy; a missing cell in
an existing row (`undefined !== 0`) makes it truthy. -/
def cellTest (b : Board) (byy bxx : Int) : Bool :=
  match b[byy.toNat]? with
  | none => false
  | some row =>
    match row[bxx.toNat]? with
    | none => true
    | some c => c.isSome

/-- The per-cell test of `checkCollision` for the shape cell at
`(row, col)` holding `v`: occupied and (x out of `[0, BOARD_WIDTH)`, or
`y ≥ BOARD_HEIGHT`, or `y ≥ 0` and the board cell is non-empty). -/
def collCell (b : Board) (x y : Int) (row col v : Nat) : Bool :=
  decide (v ≠ 0) &&
    (decide (x + (col : Int) < 0) ||
     decide ((BOARD_WIDTH : Int) ≤ x + (col : Int)) ||
     decide ((BOARD_HEIGHT : Int) ≤ y + (row : Int)) ||
     (decide ((0 : Int) ≤ y + (row : Int)) && cellTest b (y + (row : Int)) (x + (col : Int))))

/-- `checkCollision(tetromino, board, {x, y})`: some occupied cell of the
shape trips the per-cell test.  The source returns `true` from inside the
double loop at the first such cell, which is the same boolean as this
double `any` over the index ranges. -/
def checkCollision (shape : List (List Nat)) (b : Board) (p : Int × Int) : Bool :=
  (List.range shape.length).any fun row =>
    (List.range (shape.getD row []).length).any fun col =>
      collCell b p.1 p.2 row col (get2 shape row col)

/-- The fresh row `Array(BOARD_WIDTH).fill(0)` unshifted after each splice. -/
def emptyRow : List Cell := List.replicate BOARD_WIDTH (none : Cell)

/-- `newBoard[y].every((block) => block !== 0)`: every cell of the row holds a color. -/
def isFullRow (r : List Cell) : Bool := r.all fun c => c.isSome

/-- Number of full rows of a board (the rows the clear pass must remove). -/
def cntFull (b : Board) : Nat := (b.filter fun r => isFullRow r).length

/-- The line-clear `for` loop of `updateBoard`.  The first argument is fuel
(the source loop is bounded only by its index gymnastics), the second is
`y + 1` for the source's scan index `y` (so `0` is loop exit at `y = -1`).
A full row at index `y` is spliced out, an empty row is unshifted, and the
index is re-incremented (`y++` before the loop's `y--`), so the same index —
now holding the row that slid down — is rechecked; otherwise the scan moves
up one row. -/
def clearLoop : Nat → Nat → Board → Board × Nat
  | 0, _, b => (b, 0)
  | fuel + 1, y, b =>
    match y with
    | 0 => (b, 0)
    | y' + 1 =>
      if isFullRow (b.getD y' []) then
        let r := clearLoop fuel (y' + 1) (emptyRow :: b.eraseIdx y')
        (r.1, r.2 + 1)
      else
        clearLoop fuel y' b

/-- The whole clear pass: scan starts at `y = BOARD_HEIGHT - 1`.  The fuel
`2 * BOARD_HEIGHT + 1` strictly bounds the iteration count (at most
`BOARD_HEIGHT` downward steps plus one splice per full row). -/
def clearFullRows (b : Board) : Board × Nat :=
  clearLoop (2 * BOARD_HEIGHT + 1) BOARD_HEIGHT b

/-- The write `newBoard[pos.y + y][pos.x + x] = color` for one occupied
shape cell; out-of-range coordinates leave the board unchanged (the engine
only locks pieces whose occupied cells are in bounds). -/
def setCell (b : Board) (y x : Int) (c : Cell) : Board :=
  if 0 ≤ y ∧ 0 ≤ x then
    match b[y.toNat]? with
    | none => b
    | some row => b.set y.toNat (row.set x.toNat c)
  else b

/-- The double `forEach` of `updateBoard` stamping the locked tetromino's
color into every occupied cell at its offset. -/
def placeTetromino (tet : Tetromino) (pos : Int × Int) (b : Board) : Board :=
  (List.range tet.shape.length).foldl
    (fun acc r =>
      (List.range (tet.shape.getD r []).length).foldl
        (fun acc2 c =>
          if get2 tet.shape r c ≠ 0 then
            setCell acc2 (pos.2 + (r : Int)) (pos.1 + (c : Int)) (some tet.color)
          else acc2)
        acc)
    b

/-- The component state mutated by the engine: `board`, `currentTetromino`,
`currentPos`, `score`, `gameOver`, `gameStarted`, and the `dropTimeRef`
accumulator of the frame loop. -/
structure GameState where
  board : Board
  current : Option Tetromino
  pos : Int × Int
  score : Nat
  gameOver : Bool
  gameStarted : Bool
  dropTime : Nat
deriving DecidableEq

/-- `updateBoard(newTetromino, newPos)`: stamp the piece, run the clear
pass, and add `linesCleared * 100` to the score when any line cleared. -/
def updateBoard (tet : Tetromino) (pos : Int × Int) (st : GameState) : GameState :=
  let merged := placeTetromino tet pos st.board
  let cleared := clearFullRows merged
  { st with
    board := cleared.1
    score := if cleared.2 > 0 then st.score + cleared.2 * 100 else st.score }

/-- The spawn column `Math.floor(BOARD_WIDTH / 2) - Math.floor(tetromino.shape[0].length / 2)`. -/
def startX (tet : Tetromino) : Int :=
  (BOARD_WIDTH : Int) / 2 - ((tet.shape.headD []).length : Int) / 2

/-- `newTetromino()`, with the random catalog pick injected as the
parameter `t`.  On a colliding spawn it sets `gameOver`, clears
`gameStarted` and returns without touching `currentTetromino` or
`currentPos`; otherwise it installs the piece at `(startX, 0)`. -/
def newTetromino (t : TetrominoKey) (st : GameState) : GameState :=
  let tet := TETROMINOES t
  if checkCollision tet.shape st.board (startX tet, 0) then
    { st with gameOver := true, gameStarted := false }
  else
    { st with current := some tet, pos := (startX tet, 0) }

/-- The keys the `handleKeyDown` listener reacts to. -/
inductive Key
  | left | right | down | up | space
deriving DecidableEq

/-- The loop `while (!checkCollision(shape, board, {x, y: dropY + 1})) dropY++`
of the spacebar branch, with fuel.  Returns the final `dropY`. -/
def hardDropY (shape : List (List Nat)) (b : Board) (x : Int) : Nat → Int → Int
  | 0, y => y
  | fuel + 1, y =>
    if checkCollision shape b (x, y + 1) then y
    else hardDropY shape b x fuel (y + 1)

/-- `handleKeyDown`, with the random pick for a possible respawn injected
as `t`.  Guard: no-op unless started, not over, and a piece is active.
Spacebar runs the hard-drop loop (fuel `2 * BOARD_HEIGHT` strictly exceeds
the possible iteration count) and *returns* — only the position changes.
Other keys build `(newX, newY, newShape)` and apply them when collision-free;
a blocked `ArrowDown` locks the piece and respawns. -/
def handleKey (k : Key) (t : TetrominoKey) (st : GameState) : GameState :=
  if st.gameStarted = false ∨ st.gameOver = true then st
  else
    match st.current with
    | none => st
    | some tet =>
      match k with
      | .space =>
        { st with
          pos := (st.pos.1, hardDropY tet.shape st.board st.pos.1 (2 * BOARD_HEIGHT) st.pos.2) }
      | _ =>
        let newX : Int := st.pos.1 + (if k = .left then -1 else if k = .right then 1 else 0)
        let newY : Int := st.pos.2 + (if k = .down then 1 else 0)
        let newShape := if k = .up then rotate (copyGrid tet.shape) 1 else tet.shape
        if checkCollision newShape st.board (newX, newY) = false then
          { st with pos := (newX, newY), current := some { tet with shape := newShape } }
        else if k = .down then
          newTetromino t (updateBoard tet st.pos st)
        else st

/-- One invocation of `gameLoop`, abstracted over the frame's `deltaTime`
(the `lastTimeRef` subtraction) and the random pick `t` for a possible
respawn.  Returns unchanged state unless started and not over; past the
drop interval it resets the accumulator and either descends one row or
locks, clears and respawns. -/
def gameLoopStep (delta : Nat) (t : TetrominoKey) (st : GameState) : GameState :=
  if st.gameStarted = false ∨ st.gameOver = true then st
  else
    let dt := st.dropTime + delta
    if dt > 1000 then
      match st.current with
      | none => { st with dropTime := 0 }
      | some tet =>
        if checkCollision tet.shape st.board (st.pos.1, st.pos.2 + 1) = false then
          { st with dropTime := 0, pos := (st.pos.1, st.pos.2 + 1) }
        else
          newTetromino t (updateBoard tet st.pos { st with dropTime := 0 })
    else { st with dropTime := dt }

/-- Fixture: a row fully occupied by red blocks. -/
def fullRowRed : List Cell := List.replicate BOARD_WIDTH (some "red")

/-- Fixture: an otherwise empty board whose bottom row is occupied except
at columns 4 and 5 (the two columns a spawned O piece occupies). -/
def bottomGapBoard : Board :=
  List.replicate 19 (List.replicate BOARD_WIDTH (none : Cell)) ++
    [List.replicate 4 (some "red") ++ [none, none] ++ List.replicate 4 (some "red")]

/-- Fixture: a board with every cell occupied. -/
def fullBoard : Board := List.replicate BOARD_HEIGHT fullRowRed

/-- Fixture: a running session with a freshly spawned O piece on an empty board. -/
def stStart : GameState :=
  { board := createBoard, current := some (TETROMINOES .O), pos := (4, 0),
    score := 0, gameOver := false, gameStarted := true, dropTime := 0 }

/-- Fixture: a running session with an O piece resting on the bottom row. -/
def stBottom : GameState :=
  { board := createBoard, current := some (TETROMINOES .O), pos := (4, 18),
    score := 0, gameOver := false, gameStarted := true, dropTime := 0 }

/-- Fixture: a running session on a completely full board, the previously
locked T piece still installed as the active piece. -/
def stOverSpawn : GameState :=
  { board := fullBoard, current := some (TETROMINOES .T), pos := (3, 5),
    score := 0, gameOver := false, gameStarted := true, dropTime := 0 }

/-- Fixture: a session that has not been started. -/
def stIdle : GameState :=
  { board := createBoard, current := none, pos := (0, 0),
    score := 0, gameOver := false, gameStarted := false, dropTime := 0 }

/-- Fixture: a running session with a freshly spawned T piece on an empty board. -/
def stRest : GameState :=
  { board := createBoard, current := some (TETROMINOES .T), pos := (3, 0),
    score := 0, gameOver := false, gameStarted := true, dropTime := 0 }

example : checkCollision (TETROMINOES .O).shape createBoard (4, 0) = false := by decide
example : checkCollision (TETROMINOES .O).shape createBoard (4, 19) = true := by decide
example : checkCollision (TETROMINOES .O).shape createBoard (-1, 0) = true := by decide
example : checkCollision (TETROMINOES .I).shape createBoard (3, -1) = false := by decide
example : rotate (TETROMINOES .J).shape 1 = [[0,1,1],[0,1,0],[0,1,0]] := by decide

/-! ## Rotation lemmas -/

lemma transposeSq_length (m : List (List Nat)) : (transposeSq m).length = m.length := by
  simp [transposeSq]

lemma rotate_cw_length (m : List (List Nat)) : (rotate m 1).length = m.length := by
  simp [rotate, transposeSq]

lemma rotate_cw_row_length (m : List (List Nat)) :
    ∀ r ∈ rotate m 1, r.length = m.length := by
  intro r hr
  simp only [rotate, if_pos (by norm_num : (0:Int) < 1), List.mem_map] at hr
  obtain ⟨s, hs, rfl⟩ := hr
  simp only [transposeSq, List.mem_map, List.mem_range] at hs
  obtain ⟨i, -, rfl⟩ := hs
  simp

lemma get2_rotate_cw (m : List (List Nat)) (i j : Nat)
    (hi : i < m.length) (hj : j < m.length) :
    get2 (rotate m 1) i j = get2 m (m.length - 1 - j) i := by
  have hlen : (rotate m 1).length = m.length := rotate_cw_length m
  have hrow : (rotate m 1).getD i [] =
      ((List.range m.length).map fun a => get2 m a i).reverse := by
    rw [List.getD_eq_getElem _ _ (by omega)]
    simp only [rotate, if_pos (by norm_num : (0:Int) < 1), transposeSq]
    rw [List.getElem_map, List.getElem_map]
    simp [List.getElem_range]
  show ((rotate m 1).getD i []).getD j 0 = _
  rw [hrow, List.getD_eq_getElem _ _ (by simpa using hj), List.getElem_reverse,
    List.getElem_map]
  simp [List.getElem_range]

lemma grid_ext (a b : List (List Nat)) (hlen : a.length = b.length)
    (hrow : ∀ i, i < a.length → (a.getD i []).length = (b.getD i []).length)
    (hc : ∀ i j, i < a.length → j < (a.getD i []).length → get2 a i j = get2 b i j) :
    a = b := by
  apply List.ext_getElem hlen
  intro i h1 h2
  apply List.ext_getElem
  · have := hrow i h1
    rwa [List.getD_eq_getElem _ _ h1, List.getD_eq_getElem _ _ h2] at this
  · intro j hj1 hj2
    have := hc i j h1 (by rwa [List.getD_eq_getElem _ _ h1])
    simp only [get2] at this
    rwa [List.getD_eq_getElem _ _ h1, List.getD_eq_getElem _ _ h2,
      List.getD_eq_getElem _ _ hj1, List.getD_eq_getElem _ _ hj2] at this

lemma get2_rotate_four (m : List (List Nat)) (i j : Nat)
    (hi : i < m.length) (hj : j < m.length) :
    get2 (rotate (rotate (rotate (rotate m 1) 1) 1) 1) i j = get2 m i j := by
  set n := m.length with hn
  have l1 : (rotate m 1).length = n := rotate_cw_length m
  have l2 : (rotate (rotate m 1) 1).length = n := by rw [rotate_cw_length, l1]
  have l3 : (rotate (rotate (rotate m 1) 1) 1).length = n := by rw [rotate_cw_length, l2]
  have hpos : 0 < n := by omega
  rw [get2_rotate_cw _ i j (by omega) (by omega)]
  rw [l3]
  rw [get2_rotate_cw _ (n - 1 - j) i (by omega) (by omega)]
  rw [l2]
  rw [get2_rotate_cw _ (n - 1 - i) (n - 1 - j) (by omega) (by omega)]
  rw [l1]
  rw [get2_rotate_cw _ (n - 1 - (n - 1 - j)) (n - 1 - i) (by omega) (by omega)]
  rw [hn]
  congr 1 <;> omega

/-! ## Line-clear lemmas -/

lemma isFullRow_emptyRow : isFullRow emptyRow = false := by decide

lemma cntFull_append (a b : Board) : cntFull (a ++ b) = cntFull a + cntFull b := by
  simp [cntFull, List.filter_append]

lemma filter_length_split (p : List Cell → Bool) (l : Board) :
    (l.filter p).length + (l.filter fun r => !p r).length = l.length := by
  induction l with
  | nil => simp
  | cons h t ih =>
    by_cases hp : p h <;> simp [List.filter_cons, hp] <;> omega

/-- Adequacy of the fueled scan: whenever the scan index is within the board
and the fuel covers the remaining downward steps plus one splice per full
row below the index, the loop removes exactly the full rows of the prefix
`b.take y`, pushes that many fresh empty rows on top, and leaves the
already-scanned suffix `b.drop y` untouched. -/
lemma clearLoop_spec (fuel : Nat) : ∀ (y : Nat) (b : Board), y ≤ b.length →
    y + cntFull (b.take y) ≤ fuel →
    clearLoop fuel y b =
      (List.replicate (cntFull (b.take y)) emptyRow ++
        ((b.take y).filter fun r => !isFullRow r) ++ b.drop y,
       cntFull (b.take y)) := by
  induction fuel with
  | zero =>
    intro y b hy hfuel
    have hy0 : y = 0 := by omega
    subst hy0
    simp [clearLoop, cntFull]
  | succ fuel ih =>
    intro y b hy hfuel
    match y with
    | 0 => simp [clearLoop, cntFull]
    | y' + 1 =>
      have hlt : y' < b.length := by omega
      have hbget : b.getD y' [] = b[y'] := List.getD_eq_getElem b [] hlt
      have htake : b.take (y' + 1) = b.take y' ++ [b[y']] := by
        rw [List.take_succ, List.getElem?_eq_getElem hlt]
        rfl
      by_cases hfull : isFullRow (b.getD y' []) = true
      · -- full row: splice at y', unshift an empty row, recheck index y'
        have hbfull : isFullRow b[y'] = true := by rwa [hbget] at hfull
        set b2 : Board := emptyRow :: b.eraseIdx y' with hb2
        have herase : b.eraseIdx y' = b.take y' ++ b.drop (y' + 1) :=
          List.eraseIdx_eq_take_drop_succ ..
        have hlentake : (b.take y').length = y' := by
          rw [List.length_take]
          omega
        have hlen2 : b2.length = b.length := by
          rw [hb2, herase]
          simp only [List.length_cons, List.length_append, List.length_take,
            List.length_drop]
          omega
        have htake2 : b2.take (y' + 1) = emptyRow :: b.take y' := by
          rw [hb2, herase, List.take_succ_cons]
          congr 1
          rw [List.take_append_of_le_length (by omega), List.take_take]
          congr 1
          omega
        have hdrop2 : b2.drop (y' + 1) = b.drop (y' + 1) := by
          rw [hb2, herase, List.drop_succ_cons]
          exact List.drop_left' hlentake
        have hcnt2 : cntFull (b2.take (y' + 1)) = cntFull (b.take y') := by
          rw [htake2]
          simp [cntFull, List.filter_cons, isFullRow_emptyRow]
        have hcnt1 : cntFull (b.take (y' + 1)) = cntFull (b.take y') + 1 := by
          rw [htake, cntFull_append]
          simp [cntFull, List.filter_cons, hbfull]
        have hget? : b[y']? = some b[y'] := List.getElem?_eq_getElem hlt
        have hstep : clearLoop (fuel + 1) (y' + 1) b =
            ((clearLoop fuel (y' + 1) b2).1, (clearLoop fuel (y' + 1) b2).2 + 1) := by
          simp [clearLoop, hget?, hbfull, hb2]
        have hrec := ih (y' + 1) b2 (by omega) (by omega)
        rw [hstep, hrec]
        refine Prod.ext ?_ ?_
        · show _ = List.replicate (cntFull (b.take (y' + 1))) emptyRow ++ _ ++ _
          rw [hcnt2, htake2, hdrop2, hcnt1, htake]
          simp only [List.filter_cons, List.filter_append, isFullRow_emptyRow,
            Bool.not_false, if_true, hbfull, Bool.not_true, Bool.false_eq_true,
            if_false, List.append_nil]
          rw [List.replicate_succ']
          simp [List.append_assoc]
        · show _ + 1 = cntFull (b.take (y' + 1))
          rw [hcnt2, hcnt1]
      · -- non-full row: move the scan index down
        have hbnf : isFullRow b[y'] = false := by
          rw [← hbget]
          simpa using hfull
        have hcnt1 : cntFull (b.take (y' + 1)) = cntFull (b.take y') := by
          rw [htake, cntFull_append]
          simp [cntFull, List.filter_cons, hbnf]
        have hget? : b[y']? = some b[y'] := List.getElem?_eq_getElem hlt
        have hstep : clearLoop (fuel + 1) (y' + 1) b = clearLoop fuel y' b := by
          simp [clearLoop, hget?, hbnf]
        have hrec := ih y' b (by omega) (by omega)
        rw [hstep, hrec]
        refine Prod.ext ?_ ?_
        · show _ = List.replicate (cntFull (b.take (y' + 1))) emptyRow ++ _ ++ _
          rw [hcnt1, htake]
          simp only [List.filter_append, List.filter_cons, hbnf, Bool.not_false,
            if_true, List.filter_nil]
          rw [List.drop_eq_getElem_cons hlt]
          simp [List.append_assoc]
        · show _ = cntFull (b.take (y' + 1))
          rw [hcnt1]

/-- `clearFullRows` on a full-height board: the functional characterization. -/
lemma clearFullRows_eq (b : Board) (hb : b.length = BOARD_HEIGHT) :
    clearFullRows b =
      (List.replicate (cntFull b) emptyRow ++ (b.filter fun r => !isFullRow r),
       cntFull b) := by
  have hcnt : cntFull b ≤ BOARD_HEIGHT := by
    have := List.length_filter_le (fun r => isFullRow r) b
    simp only [cntFull]
    omega
  have := clearLoop_spec (2 * BOARD_HEIGHT + 1) BOARD_HEIGHT b (by omega) ?_
  · rw [clearFullRows, this]
    rw [show b.take BOARD_HEIGHT = b from hb ▸ List.take_length b]
    rw [show b.drop BOARD_HEIGHT = [] from hb ▸ List.drop_length b]
    simp
  · rw [show b.take BOARD_HEIGHT = b from hb ▸ List.take_length b]
    omega

/-! ## Board-dimension lemmas for the lock step -/

lemma foldl_preserve {α β : Type} (P : α → Prop) (f : α → β → α)
    (hf : ∀ a x, P a → P (f a x)) : ∀ (l : List β) (a : α), P a → P (l.foldl f a) := by
  intro l
  induction l with
  | nil => intro a ha; exact ha
  | cons h t ih => intro a ha; exact ih (f a h) (hf a h ha)

/-- `setCell` preserves the board's height. -/
lemma setCell_length (b : Board) (y x : Int) (c : Cell) :
    (setCell b y x c).length = b.length := by
  unfold setCell
  split
  · split <;> simp
  · rfl

/-- `setCell` preserves every row's width. -/
lemma setCell_width (b : Board) (y x : Int) (c : Cell)
    (hw : ∀ r ∈ b, r.length = BOARD_WIDTH) :
    ∀ r ∈ setCell b y x c, r.length = BOARD_WIDTH := by
  intro r hr
  unfold setCell at hr
  split at hr
  · split at hr
    · exact hw r hr
    · rename_i row hrow
      rcases List.mem_or_eq_of_mem_set hr with h | h
      · exact hw r h
      · rw [h, List.length_set]
        exact hw row (List.getElem?_mem hrow)
  · exact hw r hr

/-- `placeTetromino` preserves the board's height and every row's width. -/
lemma placeTetromino_dims (tet : Tetromino) (pos : Int × Int) (b : Board)
    (hw : ∀ r ∈ b, r.length = BOARD_WIDTH) :
    (placeTetromino tet pos b).length = b.length ∧
      ∀ r ∈ placeTetromino tet pos b, r.length = BOARD_WIDTH := by
  unfold placeTetromino
  have main : ∀ b' : Board, (b'.length = b.length ∧ ∀ r ∈ b', r.length = BOARD_WIDTH) →
      ∀ l : List Nat, ∀ rr : Nat,
        ((l.foldl
          (fun acc2 c =>
            if get2 tet.shape rr c ≠ 0 then
              setCell acc2 (pos.2 + (rr : Int)) (pos.1 + (c : Int)) (some tet.color)
            else acc2)
          b').length = b.length ∧
        ∀ r ∈ l.foldl
          (fun acc2 c =>
            if get2 tet.shape rr c ≠ 0 then
              setCell acc2 (pos.2 + (rr : Int)) (pos.1 + (c : Int)) (some tet.color)
            else acc2)
          b', r.length = BOARD_WIDTH) := by
    intro b' hb' l rr
    refine foldl_preserve
      (fun bb : Board => bb.length = b.length ∧ ∀ r ∈ bb, r.length = BOARD_WIDTH) _ ?_ l b' hb'
    intro a x ⟨ha1, ha2⟩
    split
    · exact ⟨by rw [setCell_length, ha1], setCell_width _ _ _ _ ha2⟩
    · exact ⟨ha1, ha2⟩
  refine foldl_preserve
    (fun bb : Board => bb.length = b.length ∧ ∀ r ∈ bb, r.length = BOARD_WIDTH) _ ?_ _ b
    ⟨rfl, hw⟩
  intro a x ha
  exact main a ha _ x

/-! ## Collision lemmas -/

/-- On a proper `BOARD_HEIGHT × BOARD_WIDTH` board and in-range coordinates,
the JS truthiness dance of `cellTest` is just: the addressed cell is non-empty. -/
lemma cellTest_proper (b : Board) (hb : b.length = BOARD_HEIGHT)
    (hw : ∀ r ∈ b, r.length = BOARD_WIDTH) (byy bxx : Int)
    (hy0 : 0 ≤ byy) (hylt : byy < (BOARD_HEIGHT : Int))
    (hx0 : 0 ≤ bxx) (hxlt : bxx < (BOARD_WIDTH : Int)) :
    cellTest b byy bxx = ((b.getD byy.toNat []).getD bxx.toNat none).isSome := by
  have hyn : byy.toNat < b.length := by omega
  have hrow? : b[byy.toNat]? = some b[byy.toNat] := List.getElem?_eq_getElem hyn
  have hrowlen : b[byy.toNat].length = BOARD_WIDTH := hw _ (List.getElem_mem hyn)
  have hxn : bxx.toNat < b[byy.toNat].length := by omega
  have hcell? : b[byy.toNat][bxx.toNat]? = some b[byy.toNat][bxx.toNat] :=
    List.getElem?_eq_getElem hxn
  unfold cellTest
  simp only [hrow?, hcell?]
  rw [List.getD_eq_getElem b [] hyn, List.getD_eq_getElem _ none hxn]

/-- The per-cell collision test, characterized on a proper board. -/
lemma collCell_iff (b : Board) (hb : b.length = BOARD_HEIGHT)
    (hw : ∀ r ∈ b, r.length = BOARD_WIDTH) (x y : Int) (row col v : Nat) :
    collCell b x y row col v = true ↔
      v ≠ 0 ∧ (x + (col : Int) < 0 ∨ (BOARD_WIDTH : Int) ≤ x + (col : Int) ∨
        (BOARD_HEIGHT : Int) ≤ y + (row : Int) ∨
        (0 ≤ y + (row : Int) ∧
          ((b.getD (y + (row : Int)).toNat []).getD (x + (col : Int)).toNat none).isSome = true)) := by
  by_cases hA : x + (col : Int) < 0
  · simp [collCell, hA]
  by_cases hB : (BOARD_WIDTH : Int) ≤ x + (col : Int)
  · simp [collCell, hA, hB]
  by_cases hC : (BOARD_HEIGHT : Int) ≤ y + (row : Int)
  · simp [collCell, hA, hB, hC]
  by_cases hD : (0 : Int) ≤ y + (row : Int)
  · rw [collCell, cellTest_proper b hb hw _ _ hD (by omega) (by omega) (by omega)]
    simp [hA, hB, hC, hD]
  · simp [collCell, hA, hB, hC, hD]

/-- A shape with an occupied cell collides at any offset that puts that
cell at or below the bottom of the board, whatever the board holds. -/
lemma checkCollision_low (shape : List (List Nat)) (b : Board) (x y : Int)
    (row col : Nat) (hr : row < shape.length) (hc : col < (shape.getD row []).length)
    (hocc : get2 shape row col ≠ 0) (hy : (BOARD_HEIGHT : Int) ≤ y + (row : Int)) :
    checkCollision shape b (x, y) = true := by
  rw [checkCollision, List.any_eq_true]
  refine ⟨row, List.mem_range.mpr hr, ?_⟩
  rw [List.any_eq_true]
  refine ⟨col, List.mem_range.mpr hc, ?_⟩
  simp [collCell, hocc, hy]

/-- Adequacy of the fueled hard-drop loop: if the piece currently fits and
some position at most `fuel - 1` rows further down collides, the loop stops
at a non-colliding offset whose one-row-lower translation collides and that
is not above the starting offset. -/
lemma hardDropY_spec (shape : List (List Nat)) (b : Board) (x : Int) :
    ∀ (fuel : Nat) (y : Int),
      checkCollision shape b (x, y) = false →
      (∃ k : Nat, k < fuel ∧ checkCollision shape b (x, y + 1 + (k : Int)) = true) →
      checkCollision shape b (x, hardDropY shape b x fuel y) = false ∧
      checkCollision shape b (x, hardDropY shape b x fuel y + 1) = true ∧
      y ≤ hardDropY shape b x fuel y := by
  intro fuel
  induction fuel with
  | zero =>
    rintro y h0 ⟨k, hk, -⟩
    exact absurd hk (Nat.not_lt_zero k)
  | succ fuel ih =>
    rintro y h0 ⟨k, hk, hkc⟩
    by_cases hcol : checkCollision shape b (x, y + 1) = true
    · rw [hardDropY, if_pos hcol]
      exact ⟨h0, hcol, le_refl y⟩
    · have hc' : checkCollision shape b (x, y + 1) = false := by
        simpa using hcol
      have hk0 : k ≠ 0 := by
        intro h
        subst h
        simp only [Nat.cast_zero, add_zero] at hkc
        rw [hkc] at hc'
        exact absurd hc' (by simp)
      have harg : (y + 1) + 1 + ((k - 1 : Nat) : Int) = y + 1 + (k : Int) := by omega
      have hrec := ih (y + 1) hc' ⟨k - 1, by omega, by rw [harg]; exact hkc⟩
      rw [hardDropY, if_neg hcol]
      exact ⟨hrec.1, hrec.2.1, by omega⟩

/-! ## Score and state-shape lemmas -/

lemma sum_map_length (W : Nat) : ∀ l : Board, (∀ r ∈ l, r.length = W) →
    (l.map List.length).sum = W * l.length := by
  intro l
  induction l with
  | nil => intro; simp
  | cons h t ih =>
    intro hall
    have hh : h.length = W := hall h (List.mem_cons_self h t)
    have ht := ih fun r hr => hall r (List.mem_cons_of_mem h hr)
    simp only [List.map_cons, List.sum_cons, ht, hh, List.length_cons]
    ring

lemma newTetromino_score (t : TetrominoKey) (st : GameState) :
    (newTetromino t st).score = st.score := by
  simp only [newTetromino]
  split <;> rfl

lemma updateBoard_score (tet : Tetromino) (pos : Int × Int) (st : GameState) :
    (updateBoard tet pos st).score =
      st.score + (clearFullRows (placeTetromino tet pos st.board)).2 * 100 := by
  simp only [updateBoard]
  split
  · rfl
  · rename_i h
    omega

lemma lockSpawn_score_le (t : TetrominoKey) (tet : Tetromino) (pos : Int × Int)
    (st : GameState) : st.score ≤ (newTetromino t (updateBoard tet pos st)).score := by
  rw [newTetromino_score, updateBoard_score]
  omega

lemma moveBranch_score_le (t : TetrominoKey) (tet : Tetromino) (st : GameState)
    (sh : List (List Nat)) (q : Int × Int) (isDown : Prop) [Decidable isDown] :
    st.score ≤ (if checkCollision sh st.board q = false then
        { st with pos := q, current := some { tet with shape := sh } }
      else if isDown then newTetromino t (updateBoard tet st.pos st) else st).score := by
  split
  · exact le_refl _
  split
  · exact lockSpawn_score_le t tet st.pos st
  · exact le_refl _

/-! ## Claim theorems -/

/-- C4: on any proper board, the line-clear step of a lock preserves the
board's dimensions (`BOARD_HEIGHT` rows of exactly `BOARD_WIDTH` cells) and
its total cell count, and removes a row exactly when every one of its cells
was non-empty in the board as it stood right after the piece's cells were
written and before any clearing: the surviving rows are precisely the
non-full rows of that merged board in order (so rows that slide into a
just-cleared index are also caught), below the cleared count of fresh empty
rows. -/
theorem clearFullRows_correct (tet : Tetromino) (pos : Int × Int) (b0 : Board)
    (hb : b0.length = BOARD_HEIGHT) (hw : ∀ r ∈ b0, r.length = BOARD_WIDTH) :
    (clearFullRows (placeTetromino tet pos b0)).1.length = BOARD_HEIGHT ∧
    (∀ r ∈ (clearFullRows (placeTetromino tet pos b0)).1, r.length = BOARD_WIDTH) ∧
    ((clearFullRows (placeTetromino tet pos b0)).1.map List.length).sum =
      ((placeTetromino tet pos b0).map List.length).sum ∧
    (clearFullRows (placeTetromino tet pos b0)).1 =
      List.replicate (cntFull (placeTetromino tet pos b0)) emptyRow ++
        ((placeTetromino tet pos b0).filter fun r => !isFullRow r) ∧
    (clearFullRows (placeTetromino tet pos b0)).2 = cntFull (placeTetromino tet pos b0) := by
  obtain ⟨hlen, hwid⟩ := placeTetromino_dims tet pos b0 hw
  have hmb : (placeTetromino tet pos b0).length = BOARD_HEIGHT := by rw [hlen, hb]
  have heq := clearFullRows_eq (placeTetromino tet pos b0) hmb
  have hsplit := filter_length_split (fun r => isFullRow r) (placeTetromino tet pos b0)
  have hwid2 : ∀ r ∈ (clearFullRows (placeTetromino tet pos b0)).1, r.length = BOARD_WIDTH := by
    rw [heq]
    intro r hr
    rcases List.mem_append.mp hr with h | h
    · rw [List.eq_of_mem_replicate h]
      simp [emptyRow]
    · exact hwid r (List.mem_filter.mp h).1
  have hlen2 : (clearFullRows (placeTetromino tet pos b0)).1.length = BOARD_HEIGHT := by
    rw [heq]
    simp only [List.length_append, List.length_replicate, cntFull]
    omega
  refine ⟨hlen2, hwid2, ?_, by rw [heq], by rw [heq]⟩
  rw [sum_map_length BOARD_WIDTH _ hwid2, sum_map_length BOARD_WIDTH _ hwid, hlen2, hmb]

/-- C4 witness: a lock of the O piece into `bottomGapBoard` fills the
bottom row's gap; the clear pass removes exactly that one row. -/
theorem clearFullRows_correct_witness :
    (bottomGapBoard.length = BOARD_HEIGHT ∧ ∀ r ∈ bottomGapBoard, r.length = BOARD_WIDTH) ∧
    ((clearFullRows (placeTetromino (TETROMINOES .O) (4, 18) bottomGapBoard)).1.length = BOARD_HEIGHT ∧
    (∀ r ∈ (clearFullRows (placeTetromino (TETROMINOES .O) (4, 18) bottomGapBoard)).1,
      r.length = BOARD_WIDTH) ∧
    ((clearFullRows (placeTetromino (TETROMINOES .O) (4, 18) bottomGapBoard)).1.map List.length).sum =
      ((placeTetromino (TETROMINOES .O) (4, 18) bottomGapBoard).map List.length).sum ∧
    (clearFullRows (placeTetromino (TETROMINOES .O) (4, 18) bottomGapBoard)).1 =
      List.replicate (cntFull (placeTetromino (TETROMINOES .O) (4, 18) bottomGapBoard)) emptyRow ++
        ((placeTetromino (TETROMINOES .O) (4, 18) bottomGapBoard).filter fun r => !isFullRow r) ∧
    (clearFullRows (placeTetromino (TETROMINOES .O) (4, 18) bottomGapBoard)).2 =
      cntFull (placeTetromino (TETROMINOES .O) (4, 18) bottomGapBoard)) :=
  ⟨⟨by decide, by decide⟩,
    clearFullRows_correct (TETROMINOES .O) (4, 18) bottomGapBoard (by decide) (by decide)⟩

/-- C5: on a proper board, `checkCollision` is true exactly when some
occupied cell of the shape maps to a column outside `[0, BOARD_WIDTH)`, to
a row at or below `BOARD_HEIGHT`, or to an in-board coordinate (`y ≥ 0`)
whose board cell is non-empty; hence an occupied out-of-bounds cell always
collides regardless of board contents, and an occupied cell with `y < 0`
never collides against board contents. -/
theorem checkCollision_iff (shape : List (List Nat)) (b : Board) (x y : Int)
    (hb : b.length = BOARD_HEIGHT) (hw : ∀ r ∈ b, r.length = BOARD_WIDTH) :
    checkCollision shape b (x, y) = true ↔
      ∃ row, row < shape.length ∧ ∃ col, col < (shape.getD row []).length ∧
        get2 shape row col ≠ 0 ∧
        (x + (col : Int) < 0 ∨ (BOARD_WIDTH : Int) ≤ x + (col : Int) ∨
         (BOARD_HEIGHT : Int) ≤ y + (row : Int) ∨
         (0 ≤ y + (row : Int) ∧
           ((b.getD (y + (row : Int)).toNat []).getD (x + (col : Int)).toNat none).isSome = true)) := by
  rw [checkCollision]
  simp only [List.any_eq_true, List.mem_range]
  constructor
  · rintro ⟨row, hrow, col, hcol, hcell⟩
    exact ⟨row, hrow, col, hcol, (collCell_iff b hb hw x y row col _).mp hcell⟩
  · rintro ⟨row, hrow, col, hcol, hcell⟩
    exact ⟨row, hrow, col, hcol, (collCell_iff b hb hw x y row col _).mpr hcell⟩

/-- C5 witness: the O shape one column off the left edge of the empty board. -/
theorem checkCollision_iff_witness :
    (createBoard.length = BOARD_HEIGHT ∧ ∀ r ∈ createBoard, r.length = BOARD_WIDTH) ∧
    (checkCollision (TETROMINOES .O).shape createBoard (-1, 0) = true ↔
      ∃ row, row < (TETROMINOES .O).shape.length ∧
        ∃ col, col < ((TETROMINOES .O).shape.getD row []).length ∧
        get2 (TETROMINOES .O).shape row col ≠ 0 ∧
        ((-1 : Int) + (col : Int) < 0 ∨ (BOARD_WIDTH : Int) ≤ (-1 : Int) + (col : Int) ∨
         (BOARD_HEIGHT : Int) ≤ (0 : Int) + (row : Int) ∨
         (0 ≤ (0 : Int) + (row : Int) ∧
           ((createBoard.getD ((0 : Int) + (row : Int)).toNat []).getD
             ((-1 : Int) + (col : Int)).toNat none).isSome = true))) :=
  ⟨⟨by decide, by decide⟩,
    checkCollision_iff (TETROMINOES .O).shape createBoard (-1) 0 (by decide) (by decide)⟩

/-- C6: clockwise rotation of a square grid yields a square grid of the
same size, and four successive clockwise rotations restore the original
grid exactly. -/
theorem rotate_four_restores (m : List (List Nat)) (hsq : ∀ r ∈ m, r.length = m.length) :
    rotate (rotate (rotate (rotate m 1) 1) 1) 1 = m ∧
    (rotate m 1).length = m.length ∧ (∀ r ∈ rotate m 1, r.length = m.length) := by
  have l1 : (rotate m 1).length = m.length := rotate_cw_length m
  have l2 : (rotate (rotate m 1) 1).length = m.length := by rw [rotate_cw_length, l1]
  have l3 : (rotate (rotate (rotate m 1) 1) 1).length = m.length := by rw [rotate_cw_length, l2]
  have l4 : (rotate (rotate (rotate (rotate m 1) 1) 1) 1).length = m.length := by
    rw [rotate_cw_length, l3]
  refine ⟨?_, l1, rotate_cw_row_length m⟩
  apply grid_ext _ _ l4
  · intro i hi
    have hi' : i < m.length := by rwa [l4] at hi
    have hmem : (rotate (rotate (rotate (rotate m 1) 1) 1) 1).getD i [] ∈
        rotate (rotate (rotate (rotate m 1) 1) 1) 1 := by
      rw [List.getD_eq_getElem _ _ hi]
      exact List.getElem_mem hi
    have h1 := rotate_cw_row_length (rotate (rotate (rotate m 1) 1) 1) _ hmem
    rw [h1, l3]
    have hmem2 : m.getD i [] ∈ m := by
      rw [List.getD_eq_getElem _ _ hi']
      exact List.getElem_mem hi'
    exact (hsq _ hmem2).symm
  · intro i j hi hj
    have hi' : i < m.length := by rwa [l4] at hi
    have hj' : j < m.length := by
      have hmem : (rotate (rotate (rotate (rotate m 1) 1) 1) 1).getD i [] ∈
          rotate (rotate (rotate (rotate m 1) 1) 1) 1 := by
        rw [List.getD_eq_getElem _ _ hi]
        exact List.getElem_mem hi
      have h1 := rotate_cw_row_length (rotate (rotate (rotate m 1) 1) 1) _ hmem
      rw [h1, l3] at hj
      exact hj
    exact get2_rotate_four m i j hi' hj'

/-- C6 witness: the S piece's catalog grid. -/
theorem rotate_four_restores_witness :
    (∀ r ∈ (TETROMINOES .S).shape, r.length = (TETROMINOES .S).shape.length) ∧
    (rotate (rotate (rotate (rotate (TETROMINOES .S).shape 1) 1) 1) 1 = (TETROMINOES .S).shape ∧
    (rotate (TETROMINOES .S).shape 1).length = (TETROMINOES .S).shape.length ∧
    (∀ r ∈ rotate (TETROMINOES .S).shape 1, r.length = (TETROMINOES .S).shape.length)) :=
  ⟨by decide, rotate_four_restores (TETROMINOES .S).shape (by decide)⟩

/-- C7: a lock adds exactly `100 ×` the number of rows cleared in its
resolution step to the score (in particular zero full rows leave it
unchanged), and neither the keyboard handler nor a frame step ever
decreases the `Nat`-valued score. -/
theorem score_update_exact (tet : Tetromino) (pos : Int × Int) (st : GameState)
    (k : Key) (t : TetrominoKey) (d : Nat) :
    (updateBoard tet pos st).score =
      st.score + 100 * (clearFullRows (placeTetromino tet pos st.board)).2 ∧
    st.score ≤ (handleKey k t st).score ∧
    st.score ≤ (gameLoopStep d t st).score := by
  refine ⟨by rw [updateBoard_score]; ring, ?_, ?_⟩
  · unfold handleKey
    split
    · exact le_refl _
    split
    · exact le_refl _
    rename_i tet' heq
    cases k
    case space => exact le_refl _
    case left => exact moveBranch_score_le t tet' st _ _ _
    case right => exact moveBranch_score_le t tet' st _ _ _
    case down => exact moveBranch_score_le t tet' st _ _ _
    case up => exact moveBranch_score_le t tet' st _ _ _
  · unfold gameLoopStep
    split
    · exact le_refl _
    · split
      · simp only []
        split
        · exact le_refl _
        · exact le_refl _
      · simp only []
        split
        · split
          · exact le_refl _
          · exact lockSpawn_score_le t _ st.pos { st with dropTime := 0 }
        · exact le_refl _

/-! ## Hard-drop and lock-path helpers -/

lemma handleKey_space_eq (t : TetrominoKey) (st : GameState) (tet : Tetromino)
    (hrun : st.gameStarted = true) (hover : st.gameOver = false)
    (hcur : st.current = some tet) :
    handleKey .space t st =
      { st with pos := (st.pos.1,
          hardDropY tet.shape st.board st.pos.1 (2 * BOARD_HEIGHT) st.pos.2) } := by
  unfold handleKey
  rw [if_neg (by simp [hrun, hover]), hcur]

/-- The hard-drop loop at its engine fuel: starting from a fitting position
with a non-negative row offset, a shape with at least one occupied cell
ends at a fitting offset whose one-row-lower translation collides. -/
lemma hardDrop_rest (shape : List (List Nat)) (b : Board) (x y : Int)
    (hnc : checkCollision shape b (x, y) = false) (hy : 0 ≤ y)
    (hocc : ∃ r, r < shape.length ∧ ∃ c, c < (shape.getD r []).length ∧ get2 shape r c ≠ 0) :
    checkCollision shape b (x, hardDropY shape b x (2 * BOARD_HEIGHT) y) = false ∧
    checkCollision shape b (x, hardDropY shape b x (2 * BOARD_HEIGHT) y + 1) = true ∧
    y ≤ hardDropY shape b x (2 * BOARD_HEIGHT) y := by
  obtain ⟨r, hr, c, hc, ho⟩ := hocc
  refine hardDropY_spec shape b x (2 * BOARD_HEIGHT) y hnc ⟨19, by decide, ?_⟩
  apply checkCollision_low shape b x _ r c hr hc ho
  have h20 : ((BOARD_HEIGHT : Nat) : Int) = 20 := rfl
  rw [h20]
  omega

/-- C8: when the active piece cannot move down, a soft-drop key and a
drop-interval timeout produce the same board, score, active piece,
position, and session flags (the lock/clear/spawn path is shared; only the
tick's drop-time accumulator reset differs). -/
theorem softDrop_lock_eq_tick_lock (st : GameState) (tet : Tetromino) (t : TetrominoKey)
    (d : Nat)
    (hrun : st.gameStarted = true) (hover : st.gameOver = false)
    (hcur : st.current = some tet)
    (hcoll : checkCollision tet.shape st.board (st.pos.1, st.pos.2 + 1) = true)
    (hd : 1000 < st.dropTime + d) :
    (handleKey .down t st).board = (gameLoopStep d t st).board ∧
    (handleKey .down t st).score = (gameLoopStep d t st).score ∧
    (handleKey .down t st).current = (gameLoopStep d t st).current ∧
    (handleKey .down t st).pos = (gameLoopStep d t st).pos ∧
    (handleKey .down t st).gameOver = (gameLoopStep d t st).gameOver ∧
    (handleKey .down t st).gameStarted = (gameLoopStep d t st).gameStarted := by
  have hkey : handleKey .down t st = newTetromino t (updateBoard tet st.pos st) := by
    unfold handleKey
    rw [if_neg (by simp [hrun, hover]), hcur]
    simp [hcoll]
  have htick : gameLoopStep d t st =
      newTetromino t (updateBoard tet st.pos { st with dropTime := 0 }) := by
    unfold gameLoopStep
    rw [if_neg (by simp [hrun, hover]), hcur]
    simp [hcoll, hd]
  rw [hkey, htick]
  have hbb : (updateBoard tet st.pos { st with dropTime := 0 }).board =
      (updateBoard tet st.pos st).board := rfl
  unfold newTetromino
  by_cases hsp : checkCollision (TETROMINOES t).shape
      (updateBoard tet st.pos st).board (startX (TETROMINOES t), 0) = true
  · rw [if_pos hsp, if_pos (by rw [hbb]; exact hsp)]
    exact ⟨rfl, rfl, rfl, rfl, rfl, rfl⟩
  · rw [if_neg hsp, if_neg (by rw [hbb]; exact hsp)]
    exact ⟨rfl, rfl, rfl, rfl, rfl, rfl⟩

/-- C8 witness: the O piece resting on the bottom row of an empty board. -/
theorem softDrop_lock_eq_tick_lock_witness :
    (stBottom.gameStarted = true ∧ stBottom.gameOver = false ∧
     stBottom.current = some (TETROMINOES .O) ∧
     checkCollision (TETROMINOES .O).shape stBottom.board (stBottom.pos.1, stBottom.pos.2 + 1) = true ∧
     1000 < stBottom.dropTime + 1001) ∧
    ((handleKey .down .I stBottom).board = (gameLoopStep 1001 .I stBottom).board ∧
     (handleKey .down .I stBottom).score = (gameLoopStep 1001 .I stBottom).score ∧
     (handleKey .down .I stBottom).current = (gameLoopStep 1001 .I stBottom).current ∧
     (handleKey .down .I stBottom).pos = (gameLoopStep 1001 .I stBottom).pos ∧
     (handleKey .down .I stBottom).gameOver = (gameLoopStep 1001 .I stBottom).gameOver ∧
     (handleKey .down .I stBottom).gameStarted = (gameLoopStep 1001 .I stBottom).gameStarted) :=
  ⟨⟨by decide, by decide, by decide, by decide, by decide⟩,
    softDrop_lock_eq_tick_lock stBottom (TETROMINOES .O) .I 1001
      (by decide) (by decide) (by decide) (by decide) (by decide)⟩

/-- C9: the offset a hard drop rests the piece at fits on the board, while
the same shape one row lower collides — the piece stops exactly one step
above collision. -/
theorem hardDrop_rests_one_above_collision (st : GameState) (tet : Tetromino)
    (t : TetrominoKey)
    (hrun : st.gameStarted = true) (hover : st.gameOver = false)
    (hcur : st.current = some tet)
    (hnc : checkCollision tet.shape st.board (st.pos.1, st.pos.2) = false)
    (hy : 0 ≤ st.pos.2)
    (hocc : ∃ r, r < tet.shape.length ∧ ∃ c, c < (tet.shape.getD r []).length ∧
      get2 tet.shape r c ≠ 0) :
    checkCollision tet.shape st.board
      ((handleKey .space t st).pos.1, (handleKey .space t st).pos.2) = false ∧
    checkCollision tet.shape st.board
      ((handleKey .space t st).pos.1, (handleKey .space t st).pos.2 + 1) = true := by
  rw [handleKey_space_eq t st tet hrun hover hcur]
  have h := hardDrop_rest tet.shape st.board st.pos.1 st.pos.2 hnc hy hocc
  exact ⟨h.1, h.2.1⟩

/-- C9 witness: a freshly spawned T piece on an empty board. -/
theorem hardDrop_rests_one_above_collision_witness :
    (stRest.gameStarted = true ∧ stRest.gameOver = false ∧
     stRest.current = some (TETROMINOES .T) ∧
     checkCollision (TETROMINOES .T).shape stRest.board (stRest.pos.1, stRest.pos.2) = false ∧
     (0 : Int) ≤ stRest.pos.2 ∧
     (∃ r, r < (TETROMINOES .T).shape.length ∧
       ∃ c, c < ((TETROMINOES .T).shape.getD r []).length ∧
         get2 (TETROMINOES .T).shape r c ≠ 0)) ∧
    (checkCollision (TETROMINOES .T).shape stRest.board
      ((handleKey .space .I stRest).pos.1, (handleKey .space .I stRest).pos.2) = false ∧
     checkCollision (TETROMINOES .T).shape stRest.board
      ((handleKey .space .I stRest).pos.1, (handleKey .space .I stRest).pos.2 + 1) = true) :=
  ⟨⟨by decide, by decide, by decide, by decide, by decide, by decide⟩,
    hardDrop_rests_one_above_collision stRest (TETROMINOES .T) .I
      (by decide) (by decide) (by decide) (by decide) (by decide) (by decide)⟩

/-- C1 counterexample: on a running session with a fresh O piece on the
empty board, the spacebar handler leaves the board empty, the score at 0,
and the same piece installed — merely moving it to `(4, 18)`.  Had the
claimed lock/clear/spawn happened in the same operation, the piece's cells
would have been written into the board (making it non-empty) and a fresh
piece would sit at the spawn row, so the claim fails at this input. -/
theorem hardDrop_no_immediate_lock_cex :
    (handleKey .space .I stStart).board = stStart.board ∧
    (handleKey .space .I stStart).score = stStart.score ∧
    (handleKey .space .I stStart).current = some (TETROMINOES .O) ∧
    (handleKey .space .I stStart).pos = (4, 18) := by decide

/-- C1 (amended): the spacebar handler translates the active piece to the
lowest non-colliding offset in its column and returns: the position's row
becomes the hard-drop offset (fitting, with the row below colliding) while
board, score, active piece, and session flags are untouched — the
lock/clear/spawn sequence is *not* run in the same operation (it happens on
the next failed downward step instead). -/
theorem hardDrop_moves_to_rest_without_lock (st : GameState) (tet : Tetromino)
    (t : TetrominoKey)
    (hrun : st.gameStarted = true) (hover : st.gameOver = false)
    (hcur : st.current = some tet)
    (hnc : checkCollision tet.shape st.board (st.pos.1, st.pos.2) = false)
    (hy : 0 ≤ st.pos.2)
    (hocc : ∃ r, r < tet.shape.length ∧ ∃ c, c < (tet.shape.getD r []).length ∧
      get2 tet.shape r c ≠ 0) :
    (handleKey .space t st).board = st.board ∧
    (handleKey .space t st).score = st.score ∧
    (handleKey .space t st).current = st.current ∧
    (handleKey .space t st).gameOver = st.gameOver ∧
    (handleKey .space t st).gameStarted = st.gameStarted ∧
    (handleKey .space t st).pos.1 = st.pos.1 ∧
    st.pos.2 ≤ (handleKey .space t st).pos.2 ∧
    checkCollision tet.shape st.board (st.pos.1, (handleKey .space t st).pos.2) = false ∧
    checkCollision tet.shape st.board (st.pos.1, (handleKey .space t st).pos.2 + 1) = true := by
  rw [handleKey_space_eq t st tet hrun hover hcur]
  have h := hardDrop_rest tet.shape st.board st.pos.1 st.pos.2 hnc hy hocc
  exact ⟨rfl, rfl, rfl, rfl, rfl, rfl, h.2.2, h.1, h.2.1⟩

/-- C1 witness: the fresh O piece on the empty board. -/
theorem hardDrop_moves_to_rest_without_lock_witness :
    (stStart.gameStarted = true ∧ stStart.gameOver = false ∧
     stStart.current = some (TETROMINOES .O) ∧
     checkCollision (TETROMINOES .O).shape stStart.board (stStart.pos.1, stStart.pos.2) = false ∧
     (0 : Int) ≤ stStart.pos.2 ∧
     (∃ r, r < (TETROMINOES .O).shape.length ∧
       ∃ c, c < ((TETROMINOES .O).shape.getD r []).length ∧
         get2 (TETROMINOES .O).shape r c ≠ 0)) ∧
    ((handleKey .space .O stStart).board = stStart.board ∧
     (handleKey .space .O stStart).score = stStart.score ∧
     (handleKey .space .O stStart).current = stStart.current ∧
     (handleKey .space .O stStart).gameOver = stStart.gameOver ∧
     (handleKey .space .O stStart).gameStarted = stStart.gameStarted ∧
     (handleKey .space .O stStart).pos.1 = stStart.pos.1 ∧
     stStart.pos.2 ≤ (handleKey .space .O stStart).pos.2 ∧
     checkCollision (TETROMINOES .O).shape stStart.board
       (stStart.pos.1, (handleKey .space .O stStart).pos.2) = false ∧
     checkCollision (TETROMINOES .O).shape stStart.board
       (stStart.pos.1, (handleKey .space .O stStart).pos.2 + 1) = true) :=
  ⟨⟨by decide, by decide, by decide, by decide, by decide, by decide⟩,
    hardDrop_moves_to_rest_without_lock stStart (TETROMINOES .O) .O
      (by decide) (by decide) (by decide) (by decide) (by decide) (by decide)⟩

/-- C2 counterexample: spawning on a completely full board sets the
game-over flag but does *not* clear the active piece: the previously
locked T piece is still installed afterwards, contradicting the claim that
no active piece remains in the engine state. -/
theorem spawn_collision_keeps_active_piece_cex :
    (newTetromino .O stOverSpawn).gameOver = true ∧
    (newTetromino .O stOverSpawn).current = some (TETROMINOES .T) ∧
    (newTetromino .O stOverSpawn).current ≠ none := by decide

/-- C2 (amended): when the spawn position collides, the session transitions
to "over" (`gameOver` set, `gameStarted` cleared) and no new piece is
installed — but the active-piece field is left untouched (it retains the
previously locked piece) rather than being cleared, as are the position,
board and score. -/
theorem spawn_collision_game_over_no_install (t : TetrominoKey) (st : GameState)
    (h : checkCollision (TETROMINOES t).shape st.board (startX (TETROMINOES t), 0) = true) :
    (newTetromino t st).gameOver = true ∧
    (newTetromino t st).gameStarted = false ∧
    (newTetromino t st).current = st.current ∧
    (newTetromino t st).board = st.board ∧
    (newTetromino t st).pos = st.pos ∧
    (newTetromino t st).score = st.score := by
  simp only [newTetromino]
  rw [if_pos h]
  exact ⟨rfl, rfl, rfl, rfl, rfl, rfl⟩

/-- C2 witness: an I-piece spawn attempt on the full board. -/
theorem spawn_collision_game_over_no_install_witness :
    (checkCollision (TETROMINOES .I).shape stOverSpawn.board
      (startX (TETROMINOES .I), 0) = true) ∧
    ((newTetromino .I stOverSpawn).gameOver = true ∧
     (newTetromino .I stOverSpawn).gameStarted = false ∧
     (newTetromino .I stOverSpawn).current = stOverSpawn.current ∧
     (newTetromino .I stOverSpawn).board = stOverSpawn.board ∧
     (newTetromino .I stOverSpawn).pos = stOverSpawn.pos ∧
     (newTetromino .I stOverSpawn).score = stOverSpawn.score) :=
  ⟨by decide, spawn_collision_game_over_no_install .I stOverSpawn (by decide)⟩

/-- C3 counterexample: `rotate` does not leave its input grid unchanged —
after a clockwise call the argument array holds the rotated J grid, not
the catalog's J grid, so the claim that the rotation operation never
mutates its argument fails. -/
theorem rotate_mutates_argument_cex :
    rotateArg (TETROMINOES .J).shape 1 ≠ (TETROMINOES .J).shape := by decide

/-- C3 (amended): `rotate` mutates its argument in place — after a
clockwise call the argument array holds exactly the 90°-clockwise rotation
of the grid it held before (entry `(i, j)` comes from old entry
`(n-1-j, i)`) — so the catalog's stored shapes stay unchanged only because
the key handler passes a row-by-row copy of the active shape instead of
the stored grid itself. -/
theorem rotateArg_is_cw_rotation (m : List (List Nat))
    (hsq : ∀ r ∈ m, r.length = m.length) :
    (rotateArg m 1).length = m.length ∧
    ∀ i j, i < m.length → j < m.length →
      get2 (rotateArg m 1) i j = get2 m (m.length - 1 - j) i := by
  have hre : rotateArg m 1 = rotate m 1 := rfl
  rw [hre]
  exact ⟨rotate_cw_length m, fun i j hi hj => get2_rotate_cw m i j hi hj⟩

/-- C3 witness: the J piece's catalog grid. -/
theorem rotateArg_is_cw_rotation_witness :
    (∀ r ∈ (TETROMINOES .J).shape, r.length = (TETROMINOES .J).shape.length) ∧
    ((rotateArg (TETROMINOES .J).shape 1).length = (TETROMINOES .J).shape.length ∧
     ∀ i j, i < (TETROMINOES .J).shape.length → j < (TETROMINOES .J).shape.length →
       get2 (rotateArg (TETROMINOES .J).shape 1) i j =
         get2 (TETROMINOES .J).shape ((TETROMINOES .J).shape.length - 1 - j) i) :=
  ⟨by decide, rotateArg_is_cw_rotation (TETROMINOES .J).shape (by decide)⟩

/-- C10: once the session is not running (not started or game over), every
keyboard command and every frame step leaves the whole engine state — in
particular board, score, active piece, and offset — unchanged. -/
theorem inactive_session_ops_noop (st : GameState) (k : Key) (t : TetrominoKey)
    (d : Nat) (h : st.gameStarted = false ∨ st.gameOver = true) :
    handleKey k t st = st ∧ gameLoopStep d t st = st := by
  constructor
  · unfold handleKey
    rw [if_pos h]
  · unfold gameLoopStep
    rw [if_pos h]

/-- C10 witness: a not-yet-started session, left-arrow key and a frame step. -/
theorem inactive_session_ops_noop_witness :
    (stIdle.gameStarted = false ∨ stIdle.gameOver = true) ∧
    (handleKey .left .I stIdle = stIdle ∧ gameLoopStep 500 .I stIdle = stIdle) :=
  ⟨Or.inl (by decide), inactive_session_ops_noop stIdle .left .I 500 (Or.inl (by decide))⟩

end Tetris
